import Mathlib

/-!
Verification of the article revision / publication engine and the
boolean keyword search engine of the knowledge-base service
(`backend/app/crud.py`, `backend/app/models.py`, `backend/app/admin.py`).

The relational store is modelled as explicit lists of rows held in a `DB`
record; every CRUD function of the source is translated to a pure Lean
function over `DB`.  Timestamps are modelled by a logical clock (`Nat`)
that advances on every commit; SQL `now()` / `datetime.utcnow()` read the
clock.  Python floats (`weight_score`) are modelled as rationals: the
claims under scrutiny concern copying, comparison and min/max clamping of
weights, none of which depends on binary floating-point rounding.
-/

namespace KB

/-- Row of the `articles` table (`models.Article`). -/
structure Article where
  id : Nat
  title : String
  content : String
  tags : List String
  weight_score : ℚ
  is_active : Bool
  is_public : Bool
  view_count : Nat
  helpful_votes : Nat
  unhelpful_votes : Nat
  created_at : Nat
  updated_at : Nat
deriving Repr, DecidableEq

/-- Row of the `article_versions` table (`models.ArticleVersion`). -/
structure ArticleVersion where
  article_id : Nat
  version_number : Nat
  title : String
  content : String
  tags : List String
  weight_score : ℚ
  is_public : Bool
  is_draft : Bool
  created_at : Nat
  published_at : Option Nat
deriving Repr, DecidableEq

/-- Row of the `platforms` table (`models.Platform`); only the columns
used by the search engine are kept. -/
structure Platform where
  id : Nat
  name : String
deriving Repr, DecidableEq

/-- Row of the `products` table (`models.Product`). -/
structure Product where
  id : Nat
  name : String
deriving Repr, DecidableEq

/-- The relational store.  Lists hold rows in insertion order (SQLite
rowid order), which is also creation order.  `articlePlatforms` and
`articleProducts` are the association tables, as
`(article_id, platform_id)` / `(article_id, product_id)` pairs. -/
structure DB where
  articles : List Article
  versions : List ArticleVersion
  platforms : List Platform
  products : List Product
  articlePlatforms : List (Nat × Nat)
  articleProducts : List (Nat × Nat)
  clock : Nat
deriving Repr, DecidableEq

def emptyDB : DB :=
  { articles := [], versions := [], platforms := [], products := []
    articlePlatforms := [], articleProducts := [], clock := 0 }

/-- `crud.get_article`: first active article with the given id. -/
def get_article (db : DB) (article_id : Nat) : Option Article :=
  db.articles.find? (fun a => a.id == article_id && a.is_active)

/-- Version rows of one article, in creation order. -/
def articleVersionsOf (db : DB) (article_id : Nat) : List ArticleVersion :=
  db.versions.filter (fun v => v.article_id == article_id)

/-- The version numbers of one article's revisions, in creation order. -/
def numsOf (vs : List ArticleVersion) (article_id : Nat) : List Nat :=
  (vs.filter (fun v => v.article_id == article_id)).map (fun v => v.version_number)

def versionNums (db : DB) (article_id : Nat) : List Nat :=
  numsOf db.versions article_id

/-- `crud._next_version_number`: `max(existing version numbers, default 0) + 1`
(SQL `MAX` over the article's rows; `(current or 0) + 1`). -/
def _next_version_number (db : DB) (article_id : Nat) : Nat :=
  (versionNums db article_id).foldl Nat.max 0 + 1

/-- `crud._create_article_version`: snapshot the given article row into a
new `ArticleVersion` with the next version number and append it. -/
def _create_article_version (db : DB) (article : Article) (is_draft : Bool) :
    ArticleVersion × DB :=
  let vnum := _next_version_number db article.id
  let version : ArticleVersion :=
    { article_id := article.id
      version_number := vnum
      title := article.title
      content := article.content
      tags := article.tags
      weight_score := article.weight_score
      is_public := article.is_public
      is_draft := is_draft
      created_at := db.clock
      published_at := if is_draft then none else some db.clock }
  (version, { db with versions := db.versions ++ [version], clock := db.clock + 1 })

/-- `crud.get_article_version`: first version row with the given
`(article_id, version_number)` key (unique by table constraint). -/
def get_article_version (db : DB) (article_id version_number : Nat) :
    Option ArticleVersion :=
  db.versions.find? (fun v =>
    v.article_id == article_id && v.version_number == version_number)

/-- `crud.list_article_versions`: versions of one article ordered by
version number descending. -/
def list_article_versions (db : DB) (article_id : Nat) : List ArticleVersion :=
  (articleVersionsOf db article_id).insertionSort
    (fun v w => w.version_number ≤ v.version_number)

/-- Mutating an ORM `Article` row and committing: the matched row gets the
field update `f`; the `onupdate=func.now()` hook refreshes `updated_at`. -/
def artRowUpdate (now : Nat) (f : Article → Article) (a : Article) : Article :=
  { f a with updated_at := now }

def updateArticleRow (db : DB) (article_id : Nat) (f : Article → Article) : DB :=
  { db with
    articles := db.articles.map (fun a =>
      if a.id == article_id then artRowUpdate db.clock f a else a)
    clock := db.clock + 1 }

/-- Mutating the single ORM `ArticleVersion` object returned by
`get_article_version` (the first row matching the key). -/
def updateFirstVersion (vs : List ArticleVersion) (article_id version_number : Nat)
    (f : ArticleVersion → ArticleVersion) : List ArticleVersion :=
  match vs with
  | [] => []
  | v :: rest =>
    if v.article_id == article_id && v.version_number == version_number then
      f v :: rest
    else
      v :: updateFirstVersion rest article_id version_number f

/-- Autoincrement primary key for `articles`. -/
def nextArticleId (db : DB) : Nat :=
  (db.articles.map (fun a => a.id)).foldl Nat.max 0 + 1

/-- `crud.create_article`: defaults mirror the source
(`tags or []`, `weight_score or 1.0` — note Python `or` also replaces
`0.0` —, `is_public if not None else True`), then an initial published
version 1 snapshot is taken. -/
def create_article (db : DB) (title content : String) (tags : List String)
    (weight_score : Option ℚ) (is_public : Option Bool) : Article × DB :=
  let w : ℚ := match weight_score with
    | none => 1
    | some w => if w = 0 then 1 else w
  let a : Article :=
    { id := nextArticleId db
      title := title
      content := content
      tags := tags
      weight_score := w
      is_active := true
      is_public := is_public.getD true
      view_count := 0
      helpful_votes := 0
      unhelpful_votes := 0
      created_at := db.clock
      updated_at := db.clock }
  let db1 : DB := { db with articles := db.articles ++ [a], clock := db.clock + 1 }
  (a, (_create_article_version db1 a false).2)

/-- `schemas.ArticleUpdate` restricted to the columns of the `articles`
row (`platform_ids` / `product_ids` do not touch the row itself). -/
structure ArticleUpdate where
  title : Option String := none
  content : Option String := none
  tags : Option (List String) := none
  weight_score : Option ℚ := none
  is_active : Option Bool := none
  is_public : Option Bool := none
deriving Repr, DecidableEq

def applyArticleUpdate (u : ArticleUpdate) (a : Article) : Article :=
  { a with
    title := u.title.getD a.title
    content := u.content.getD a.content
    tags := u.tags.getD a.tags
    weight_score := u.weight_score.getD a.weight_score
    is_active := u.is_active.getD a.is_active
    is_public := u.is_public.getD a.is_public }

/-- `crud.update_article`: apply the set fields, commit, then snapshot a
new published version. -/
def update_article (db : DB) (article_id : Nat) (u : ArticleUpdate) :
    Option (Article × DB) :=
  match get_article db article_id with
  | none => none
  | some a =>
    let a2 := artRowUpdate db.clock (applyArticleUpdate u) a
    let db1 := updateArticleRow db article_id (applyArticleUpdate u)
    some (a2, (_create_article_version db1 a2 false).2)

/-- Copying a revision's snapshot fields onto a live article row, as done
by both `rollback_article_to_version` and `publish_draft_version`. -/
def applySnapshot (ver : ArticleVersion) (a : Article) : Article :=
  { a with
    title := ver.title
    content := ver.content
    tags := ver.tags
    weight_score := ver.weight_score
    is_public := ver.is_public }

/-- `crud.rollback_article_to_version`. -/
def rollback_article_to_version (db : DB) (article_id version_number : Nat) :
    Option (Article × DB) :=
  match get_article db article_id with
  | none => none
  | some art =>
    match get_article_version db article_id version_number with
    | none => none
    | some ver =>
      if ver.is_draft then none
      else
        some (artRowUpdate db.clock (applySnapshot ver) art,
          (_create_article_version (updateArticleRow db article_id (applySnapshot ver))
            (artRowUpdate db.clock (applySnapshot ver) art) false).2)

/-- `crud.create_draft_version`. -/
def create_draft_version (db : DB) (article_id : Nat) :
    Option (ArticleVersion × DB) :=
  match get_article db article_id with
  | none => none
  | some art => some (_create_article_version db art true)

/-- The draft-update payload: `crud.update_draft_version` only considers
the keys `title, content, tags, weight_score, is_public`, each applied
only when present and not `None`. -/
structure DraftUpdate where
  title : Option String := none
  content : Option String := none
  tags : Option (List String) := none
  weight_score : Option ℚ := none
  is_public : Option Bool := none
deriving Repr, DecidableEq

def applyDraftUpdate (u : DraftUpdate) (v : ArticleVersion) : ArticleVersion :=
  { v with
    title := u.title.getD v.title
    content := u.content.getD v.content
    tags := u.tags.getD v.tags
    weight_score := u.weight_score.getD v.weight_score
    is_public := u.is_public.getD v.is_public }

/-- `crud.update_draft_version`. -/
def update_draft_version (db : DB) (article_id version_number : Nat)
    (u : DraftUpdate) : Option (ArticleVersion × DB) :=
  match get_article_version db article_id version_number with
  | none => none
  | some ver =>
    if ver.is_draft then
      some (applyDraftUpdate u ver,
        { db with
          versions := updateFirstVersion db.versions article_id version_number
            (applyDraftUpdate u)
          clock := db.clock + 1 })
    else none

/-- The store state of `publish_draft_version` after the draft's fields
have been applied to the live row and the draft has been marked
published (`is_draft = False`, `published_at = now`), but before the
extra snapshot is taken. -/
def publishDB (db : DB) (article_id version_number : Nat) (ver : ArticleVersion) : DB :=
  let db1 := updateArticleRow db article_id (applySnapshot ver)
  { db1 with
    versions := updateFirstVersion db1.versions article_id version_number
      (fun v => { v with is_draft := false, published_at := some db1.clock })
    clock := db1.clock + 1 }

/-- `crud.publish_draft_version`. -/
def publish_draft_version (db : DB) (article_id version_number : Nat) :
    Option (Article × DB) :=
  match get_article db article_id, get_article_version db article_id version_number with
  | some art, some ver =>
    if ver.is_draft then
      some (artRowUpdate db.clock (applySnapshot ver) art,
        (_create_article_version (publishDB db article_id version_number ver)
          (artRowUpdate db.clock (applySnapshot ver) art) false).2)
    else none
  | _, _ => none

/-- Python `min` / `max` on rationals (kernel-computable). -/
def ratMin (a b : ℚ) : ℚ := if a ≤ b then a else b

def ratMax (a b : ℚ) : ℚ := if a ≤ b then b else a

theorem ratMin_le_left (a b : ℚ) : ratMin a b ≤ a := by
  unfold ratMin
  split_ifs with h
  · exact le_refl a
  · exact le_of_not_le h

theorem le_ratMax_left (a b : ℚ) : a ≤ ratMax a b := by
  unfold ratMax
  split_ifs with h
  · exact h
  · exact le_refl a

/-- `crud.vote_helpful`: `helpful_votes += 1`,
`weight_score = min(10.0, weight_score + 0.1)`. -/
def vote_helpful (db : DB) (article_id : Nat) : Option DB :=
  match get_article db article_id with
  | none => none
  | some _ =>
    some (updateArticleRow db article_id (fun a =>
      { a with
        helpful_votes := a.helpful_votes + 1
        weight_score := ratMin 10 (a.weight_score + 1/10) }))

/-- `crud.vote_unhelpful`: `unhelpful_votes += 1`,
`weight_score = max(0.1, weight_score - 0.05)`. -/
def vote_unhelpful (db : DB) (article_id : Nat) : Option DB :=
  match get_article db article_id with
  | none => none
  | some _ =>
    some (updateArticleRow db article_id (fun a =>
      { a with
        unhelpful_votes := a.unhelpful_votes + 1
        weight_score := ratMax (1/10) (a.weight_score - 1/20) }))

/-- `crud.increment_view_count`. -/
def increment_view_count (db : DB) (article_id : Nat) : Option DB :=
  match get_article db article_id with
  | none => none
  | some _ =>
    some (updateArticleRow db article_id (fun a =>
      { a with view_count := a.view_count + 1 }))

/-!  Query parser (`crud._parse_search_query`).  String primitives are
re-implemented structurally over `List Char` so that every definition
reduces in the kernel; they model the Python operations used by the
source: `str.split()` (split on whitespace runs, discarding empties),
`str.lower()` (ASCII fragment), and `re.sub(r'[^\w\-]+', '', body)`
(keep word characters and hyphens). -/

/-- Python `\w` on the ASCII fragment: letters, digits, underscore. -/
def isWordChar (c : Char) : Bool :=
  c.isAlpha || c.isDigit || c == '_'

/-- Characters kept by `re.sub(r'[^\w\-]+', '', body)`. -/
def keepChar (c : Char) : Bool :=
  isWordChar c || c == '-'

/-- The term body after stripping, as characters. -/
def stripChars (cs : List Char) : List Char :=
  cs.filter keepChar

def lowerStr (s : String) : String :=
  ⟨s.data.map Char.toLower⟩

/-- Python `str.split()`: split on whitespace runs, no empty tokens. -/
def splitWsAux : List Char → List Char → List String
  | [], acc => if acc.isEmpty then [] else [⟨acc.reverse⟩]
  | c :: cs, acc =>
    if c.isWhitespace then
      (if acc.isEmpty then [] else [⟨acc.reverse⟩]) ++ splitWsAux cs []
    else
      splitWsAux cs (c :: acc)

def splitTokens (q : String) : List String :=
  splitWsAux q.data []

/-- The body the loop strips: for `+`/`-` tokens the remainder after the
sign, otherwise the whole token. -/
def tokenBody (tok : String) : List Char :=
  match tok.data with
  | '+' :: rest => stripChars rest
  | '-' :: rest => stripChars rest
  | cs => stripChars cs

/-- The parser loop of `_parse_search_query`: classify each token by its
first character (`prefix in ['+', '-']`); `+`/`-` contribute the
stripped lowercased body to the required / excluded list; any other
token contributes the *original* token lowercased to the optional list;
a token whose stripped body is empty is skipped. -/
def parseTokens : List String → List String × List String × List String
  | [] => ([], [], [])
  | tok :: rest =>
    let p := parseTokens rest
    match tok.data with
    | [] => p
    | c :: body =>
      if c = '+' then
        if (stripChars body).isEmpty then p
        else (String.mk ((stripChars body).map Char.toLower) :: p.1, p.2.1, p.2.2)
      else if c = '-' then
        if (stripChars body).isEmpty then p
        else (p.1, String.mk ((stripChars body).map Char.toLower) :: p.2.1, p.2.2)
      else
        if (stripChars (c :: body)).isEmpty then p
        else (p.1, p.2.1, lowerStr tok :: p.2.2)

/-- `crud._parse_search_query`. -/
def _parse_search_query (q : String) : List String × List String × List String :=
  if q = "" then ([], [], [])
  else parseTokens (splitTokens q)

/-!  Search matching (`crud.search_articles`).  A term is wrapped as the
pattern `%term%` and evaluated with SQL `ILIKE` semantics: `%` matches
any run of characters, `_` any single character, other characters match
case-insensitively.  The matcher carries explicit fuel; each step
shrinks `pattern.length + text.length`, so `likeMatch` supplies
`pattern.length + text.length` fuel, which can never run out. -/

def likeAux : Nat → List Char → List Char → Bool
  | 0, p, t => p.isEmpty && t.isEmpty
  | _ + 1, [], t => t.isEmpty
  | fuel + 1, p :: ps, t =>
    if p == '%' then
      match t with
      | [] => likeAux fuel ps []
      | _ :: ts => likeAux fuel ps t || likeAux fuel (p :: ps) ts
    else
      match t with
      | [] => false
      | c :: ts => (p == '_' || p == c) && likeAux fuel ps ts

/-- SQL `LIKE` over characters. -/
def likeMatch (pattern text : List Char) : Bool :=
  likeAux (pattern.length + text.length) pattern text

/-- SQLAlchemy `column.ilike(pattern)`: case-insensitive `LIKE`. -/
def ilike (field pattern : String) : Bool :=
  likeMatch (pattern.data.map Char.toLower) (field.data.map Char.toLower)

/-- JSON string escaping as produced by `json_extract(tags, '$')`. -/
def jsonString (s : String) : String :=
  ⟨'"' :: (s.data.foldr (fun c acc =>
    if c == '"' || c == '\\' then '\\' :: c :: acc else c :: acc) ['"'])⟩

/-- `crud._get_json_search_condition` (SQLite branch): the `tags` JSON
array rendered as minified text, searched with `ILIKE`. -/
def tagsJson (tags : List String) : String :=
  "[" ++ String.intercalate "," (tags.map jsonString) ++ "]"

/-- `crud.search_articles._match_condition`: the per-term `OR` over
title, content, tags text, and correlated `EXISTS` over the platform and
product name joins. -/
def _match_condition (db : DB) (a : Article) (term : String) : Bool :=
  let pat := "%" ++ term ++ "%"
  ilike a.title pat ||
  ilike a.content pat ||
  ilike (tagsJson a.tags) pat ||
  db.articlePlatforms.any (fun ap =>
    ap.1 == a.id && db.platforms.any (fun p => p.id == ap.2 && ilike p.name pat)) ||
  db.articleProducts.any (fun ap =>
    ap.1 == a.id && db.products.any (fun p => p.id == ap.2 && ilike p.name pat))

/-- The base filters of both list and search queries:
`is_active == True`, plus `is_public == True` when `public_only`. -/
def baseFilter (public_only : Bool) (a : Article) : Bool :=
  a.is_active && (!public_only || a.is_public)

/-!  Ordering relations used by the SQL `ORDER BY` clauses, with the
backing list's row order as the residual tie order (stable sort). -/

def weightDesc (a b : Article) : Prop := b.weight_score ≤ a.weight_score
def weightAsc (a b : Article) : Prop := a.weight_score ≤ b.weight_score
def createdDesc (a b : Article) : Prop := b.created_at ≤ a.created_at
def createdAsc (a b : Article) : Prop := a.created_at ≤ b.created_at
def updatedDesc (a b : Article) : Prop := b.updated_at ≤ a.updated_at
def updatedAsc (a b : Article) : Prop := a.updated_at ≤ b.updated_at

instance : DecidableRel weightDesc := fun a b =>
  inferInstanceAs (Decidable (b.weight_score ≤ a.weight_score))
instance : DecidableRel weightAsc := fun a b =>
  inferInstanceAs (Decidable (a.weight_score ≤ b.weight_score))
instance : DecidableRel createdDesc := fun a b =>
  inferInstanceAs (Decidable (b.created_at ≤ a.created_at))
instance : DecidableRel createdAsc := fun a b =>
  inferInstanceAs (Decidable (a.created_at ≤ b.created_at))
instance : DecidableRel updatedDesc := fun a b =>
  inferInstanceAs (Decidable (b.updated_at ≤ a.updated_at))
instance : DecidableRel updatedAsc := fun a b =>
  inferInstanceAs (Decidable (a.updated_at ≤ b.updated_at))

instance : IsTotal Article weightDesc := ⟨fun a b => le_total b.weight_score a.weight_score⟩
instance : IsTrans Article weightDesc := ⟨fun _ _ _ h1 h2 => le_trans h2 h1⟩
instance : IsTotal Article updatedDesc := ⟨fun a b => Nat.le_total b.updated_at a.updated_at⟩
instance : IsTrans Article updatedDesc := ⟨fun _ _ _ h1 h2 => Nat.le_trans h2 h1⟩

/-- `ORDER BY weight_score DESC, updated_at DESC` of the search query. -/
def searchRel (a b : Article) : Prop :=
  b.weight_score < a.weight_score ∨
    (b.weight_score = a.weight_score ∧ b.updated_at ≤ a.updated_at)

instance : DecidableRel searchRel := fun a b =>
  inferInstanceAs (Decidable (b.weight_score < a.weight_score ∨
    (b.weight_score = a.weight_score ∧ b.updated_at ≤ a.updated_at)))

instance : IsTotal Article searchRel := by
  constructor
  intro a b
  rcases lt_trichotomy a.weight_score b.weight_score with h | h | h
  · exact Or.inr (Or.inl h)
  · rcases Nat.le_total b.updated_at a.updated_at with h2 | h2
    · exact Or.inl (Or.inr ⟨h.symm, h2⟩)
    · exact Or.inr (Or.inr ⟨h, h2⟩)
  · exact Or.inl (Or.inl h)

instance : IsTrans Article searchRel := by
  constructor
  intro a b c h1 h2
  rcases h1 with h1 | ⟨h1, h1u⟩
  · rcases h2 with h2 | ⟨h2, _⟩
    · exact Or.inl (lt_trans h2 h1)
    · exact Or.inl (h2 ▸ h1)
  · rcases h2 with h2 | ⟨h2, h2u⟩
    · exact Or.inl (h1 ▸ h2)
    · exact Or.inr ⟨h2.trans h1, Nat.le_trans h2u h1u⟩

/-- `crud.get_articles`: base filters, `ORDER BY` on the requested
column, `COUNT` before pagination, then `OFFSET skip LIMIT limit`. -/
def get_articles (db : DB) (skip limit : Nat) (sort_by order : String)
    (public_only : Bool) : List Article × Nat :=
  let flt := db.articles.filter (baseFilter public_only)
  let sorted :=
    if sort_by = "weight_score" then
      if order = "desc" then flt.insertionSort weightDesc
      else flt.insertionSort weightAsc
    else if sort_by = "created_at" then
      if order = "desc" then flt.insertionSort createdDesc
      else flt.insertionSort createdAsc
    else
      if order = "desc" then flt.insertionSort updatedDesc
      else flt.insertionSort updatedAsc
  ((sorted.drop skip).take limit, flt.length)

/-- The conjunction of filters built by `crud.search_articles`: base
filters, every required term matches, at least one optional term matches
when optional terms exist and required terms do not, and no excluded
term matches. -/
def searchPred (db : DB) (public_only : Bool)
    (required excluded optional : List String) (a : Article) : Bool :=
  baseFilter public_only a &&
  required.all (fun t => _match_condition db a t) &&
  (if !optional.isEmpty && required.isEmpty then
    optional.any (fun t => _match_condition db a t)
  else true) &&
  excluded.all (fun t => !_match_condition db a t)

/-- `crud.search_articles` (the result list; the elapsed-time component
is wall-clock measurement and is not modelled). -/
def search_articles (db : DB) (query : String) (limit : Nat)
    (public_only : Bool) : List Article :=
  if query.data.all Char.isWhitespace then
    (get_articles db 0 limit "weight_score" "desc" public_only).1
  else
    let parsed := _parse_search_query query
    let required := parsed.1
    let excluded := parsed.2.1
    let optional := parsed.2.2
    if required.isEmpty && excluded.isEmpty && optional.isEmpty then
      (get_articles db 0 limit "weight_score" "desc" public_only).1
    else
      ((db.articles.filter (searchPred db public_only required excluded optional)).insertionSort
        searchRel).take limit

/-- Published revisions of one article, in creation order. -/
def pubsOf (vs : List ArticleVersion) (article_id : Nat) : List ArticleVersion :=
  vs.filter (fun v => v.article_id == article_id && !v.is_draft)

def publishedVersionsOf (db : DB) (article_id : Nat) : List ArticleVersion :=
  pubsOf db.versions article_id

/-- The most recently created published revision of an article. -/
def lastPublished (db : DB) (article_id : Nat) : Option ArticleVersion :=
  (publishedVersionsOf db article_id).getLast?

/-!  Helper lemmas about row lookup and row mutation. -/

theorem find?_map_if (l : List Article) (aid : Nat) (g : Article → Article)
    (hid : ∀ x, (g x).id = x.id) (hact : ∀ x, (g x).is_active = x.is_active)
    (a : Article) (h : l.find? (fun x => x.id == aid && x.is_active) = some a) :
    (l.map (fun x => if x.id == aid then g x else x)).find?
      (fun x => x.id == aid && x.is_active) = some (g a) := by
  induction l with
  | nil => simp at h
  | cons x xs ih =>
    by_cases hx : (x.id == aid && x.is_active) = true
    · have hand := hx
      rw [Bool.and_eq_true] at hand
      have hgx : ((g x).id == aid && (g x).is_active) = true := by
        rw [hid, hact]; exact hx
      simp only [List.find?, hx] at h
      obtain rfl : x = a := by simpa using h
      rw [List.map_cons, if_pos hand.1]
      simp only [List.find?, hgx]
    · have hx' : (x.id == aid && x.is_active) = false := by simpa using hx
      simp only [List.find?, hx'] at h
      by_cases hxid : (x.id == aid) = true
      · have hgx : ((g x).id == aid && (g x).is_active) = false := by
          rw [hid, hact]; exact hx'
        rw [List.map_cons, if_pos hxid]
        simp only [List.find?, hgx]
        exact ih h
      · rw [List.map_cons, if_neg hxid]
        simp only [List.find?, hx']
        exact ih h

theorem get_article_updateRow (db : DB) (aid : Nat) (f : Article → Article)
    (hid : ∀ x, (f x).id = x.id) (hact : ∀ x, (f x).is_active = x.is_active)
    (a : Article) (h : get_article db aid = some a) :
    get_article (updateArticleRow db aid f) aid
      = some (artRowUpdate db.clock f a) := by
  unfold get_article updateArticleRow
  exact find?_map_if db.articles aid (artRowUpdate db.clock f)
    (fun x => hid x) (fun x => hact x) a h

theorem find?_updateFirstVersion (vs : List ArticleVersion) (aid vn : Nat)
    (f : ArticleVersion → ArticleVersion)
    (hid : ∀ v, (f v).article_id = v.article_id)
    (hnum : ∀ v, (f v).version_number = v.version_number)
    (ver : ArticleVersion)
    (h : vs.find? (fun v => v.article_id == aid && v.version_number == vn) = some ver) :
    (updateFirstVersion vs aid vn f).find?
      (fun v => v.article_id == aid && v.version_number == vn) = some (f ver) := by
  induction vs with
  | nil => simp at h
  | cons v vs ih =>
    by_cases hv : (v.article_id == aid && v.version_number == vn) = true
    · have hfv : ((f v).article_id == aid && (f v).version_number == vn) = true := by
        rw [hid, hnum]; exact hv
      simp only [List.find?, hv] at h
      obtain rfl : v = ver := by simpa using h
      unfold updateFirstVersion
      rw [if_pos hv]
      simp only [List.find?, hfv]
    · have hv' : (v.article_id == aid && v.version_number == vn) = false := by
        simpa using hv
      simp only [List.find?, hv'] at h
      unfold updateFirstVersion
      rw [if_neg (by simpa using hv)]
      simp only [List.find?, hv']
      exact ih h

theorem find?_append_some {α : Type} (p : α → Bool) (l1 l2 : List α) (a : α)
    (h : l1.find? p = some a) : (l1 ++ l2).find? p = some a := by
  rw [List.find?_append, h]; rfl

theorem find?_append_none {α : Type} (p : α → Bool) (l1 l2 : List α)
    (h : l1.find? p = none) : (l1 ++ l2).find? p = l2.find? p := by
  rw [List.find?_append, h]; rfl

/-!  Helper lemmas about the version-number lists. -/

theorem numsOf_cons (v : ArticleVersion) (vs : List ArticleVersion) (aid : Nat) :
    numsOf (v :: vs) aid
      = (if v.article_id == aid then [v.version_number] else []) ++ numsOf vs aid := by
  by_cases h : (v.article_id == aid) = true <;> simp [numsOf, h]

theorem numsOf_append (vs ws : List ArticleVersion) (aid : Nat) :
    numsOf (vs ++ ws) aid = numsOf vs aid ++ numsOf ws aid := by
  simp [numsOf, List.filter_append]

theorem numsOf_updateFirst (vs : List ArticleVersion) (a0 n0 aid : Nat)
    (f : ArticleVersion → ArticleVersion)
    (hid : ∀ v, (f v).article_id = v.article_id)
    (hnum : ∀ v, (f v).version_number = v.version_number) :
    numsOf (updateFirstVersion vs a0 n0 f) aid = numsOf vs aid := by
  induction vs with
  | nil => rfl
  | cons v vs ih =>
    unfold updateFirstVersion
    by_cases hv : (v.article_id == a0 && v.version_number == n0) = true
    · rw [if_pos hv, numsOf_cons, numsOf_cons, hid, hnum]
    · rw [if_neg (by simpa using hv), numsOf_cons, numsOf_cons, ih]

theorem pubsOf_cons (v : ArticleVersion) (vs : List ArticleVersion) (aid : Nat) :
    pubsOf (v :: vs) aid
      = (if v.article_id == aid && !v.is_draft then [v] else []) ++ pubsOf vs aid := by
  by_cases h : (v.article_id == aid && !v.is_draft) = true <;> simp [pubsOf, h]

theorem pubsOf_append (vs ws : List ArticleVersion) (aid : Nat) :
    pubsOf (vs ++ ws) aid = pubsOf vs aid ++ pubsOf ws aid := by
  simp [pubsOf, List.filter_append]

/-!  Helper lemmas about `foldl Nat.max` and `List.range'`. -/

theorem le_foldl_max_init (l : List Nat) (a : Nat) : a ≤ l.foldl Nat.max a := by
  induction l generalizing a with
  | nil => exact Nat.le_refl a
  | cons c l ih => exact Nat.le_trans (Nat.le_max_left a c) (ih (Nat.max a c))

theorem mem_le_foldl_max (l : List Nat) (a b : Nat) (h : b ∈ l) :
    b ≤ l.foldl Nat.max a := by
  induction l generalizing a with
  | nil => cases h
  | cons c l ih =>
    rcases List.mem_cons.mp h with rfl | h
    · exact Nat.le_trans (Nat.le_max_right a b) (le_foldl_max_init l _)
    · exact ih _ h

theorem foldl_max_range' (n a : Nat) :
    (List.range' 1 n).foldl Nat.max a = Nat.max a n := by
  induction n generalizing a with
  | zero => simp
  | succ n ih =>
    have hc : List.range' 1 (n + 1) = List.range' 1 n ++ [1 + n] := by
      simpa using @List.range'_concat 1 1 n
    rw [hc, List.foldl_append, ih]
    show Nat.max (Nat.max a n) (1 + n) = Nat.max a (n + 1)
    simp only [Nat.max_def]
    split_ifs <;> omega

/-!  The effect of `_create_article_version` on the version-number lists. -/

theorem versions_create (db : DB) (a : Article) (d : Bool) :
    ((_create_article_version db a d).2).versions
      = db.versions ++ [(_create_article_version db a d).1] := rfl

theorem create_fst_article_id (db : DB) (a : Article) (d : Bool) :
    ((_create_article_version db a d).1).article_id = a.id := rfl

theorem create_fst_num (db : DB) (a : Article) (d : Bool) :
    ((_create_article_version db a d).1).version_number
      = _next_version_number db a.id := rfl

theorem versionNums_create (db : DB) (a : Article) (d : Bool) (aid : Nat) :
    versionNums ((_create_article_version db a d).2) aid
      = versionNums db aid
        ++ (if a.id == aid then [_next_version_number db a.id] else []) := by
  show numsOf (db.versions ++ [(_create_article_version db a d).1]) aid = _
  rw [numsOf_append, numsOf_cons, create_fst_article_id, create_fst_num]
  simp [numsOf, versionNums]

/-- The contiguity invariant: every article's version numbers are exactly
`1..N` in creation order. -/
def ContigDB (db : DB) : Prop :=
  ∀ aid, versionNums db aid = List.range' 1 (versionNums db aid).length

theorem next_eq_of_contig {db : DB} {aid : Nat}
    (h : versionNums db aid = List.range' 1 (versionNums db aid).length) :
    _next_version_number db aid = (versionNums db aid).length + 1 := by
  obtain ⟨N, hN⟩ : ∃ N, versionNums db aid = List.range' 1 N := ⟨_, h⟩
  unfold _next_version_number
  rw [hN, foldl_max_range']
  simp [Nat.max_eq_right (Nat.zero_le N)]

theorem contig_snoc (N : Nat) (l : List Nat) (h : l = List.range' 1 N) :
    l ++ [N + 1] = List.range' 1 ((l ++ [N + 1]).length) := by
  subst h
  have hlen : (List.range' 1 N ++ [N + 1]).length = N + 1 := by simp
  rw [hlen]
  have hc := @List.range'_concat 1 1 N
  rw [show 1 + 1 * N = N + 1 from by omega] at hc
  exact hc.symm

theorem contig_create {db : DB} (h : ContigDB db) (a : Article) (d : Bool) :
    ContigDB ((_create_article_version db a d).2) := by
  intro aid
  rw [versionNums_create]
  by_cases hid : (a.id == aid) = true
  · have haid : a.id = aid := by simpa using hid
    rw [if_pos hid, haid, next_eq_of_contig (h aid)]
    exact contig_snoc _ _ (by simpa using h aid)
  · rw [if_neg hid]
    simpa using h aid

/-!  The operations of the revision engine, as one step relation. -/

inductive Op where
  | create (title content : String) (tags : List String)
      (w : Option ℚ) (p : Option Bool)
  | update (article_id : Nat) (u : ArticleUpdate)
  | createDraft (article_id : Nat)
  | updateDraft (article_id version_number : Nat) (u : DraftUpdate)
  | publish (article_id version_number : Nat)
  | rollback (article_id version_number : Nat)

/-- The database state after one operation (a failed operation leaves the
store unchanged). -/
def applyOp (db : DB) (op : Op) : DB :=
  match op with
  | .create t c tg w p => (create_article db t c tg w p).2
  | .update aid u =>
    match update_article db aid u with
    | none => db
    | some x => x.2
  | .createDraft aid =>
    match create_draft_version db aid with
    | none => db
    | some x => x.2
  | .updateDraft aid vn u =>
    match update_draft_version db aid vn u with
    | none => db
    | some x => x.2
  | .publish aid vn =>
    match publish_draft_version db aid vn with
    | none => db
    | some x => x.2
  | .rollback aid vn =>
    match rollback_article_to_version db aid vn with
    | none => db
    | some x => x.2

def runOps (ops : List Op) : DB := ops.foldl applyOp emptyDB

theorem contig_applyOp {db : DB} (hc : ContigDB db) (op : Op) :
    ContigDB (applyOp db op) := by
  cases op with
  | create t c tg w p =>
    simp only [applyOp, create_article]
    refine contig_create ?_ _ _
    intro x
    exact hc x
  | update aid u =>
    simp only [applyOp]
    cases hg : get_article db aid with
    | none => simp only [update_article, hg]; exact hc
    | some a =>
      simp only [update_article, hg]
      refine contig_create ?_ _ _
      intro x
      exact hc x
  | createDraft aid =>
    simp only [applyOp]
    cases hg : get_article db aid with
    | none => simp only [create_draft_version, hg]; exact hc
    | some a =>
      simp only [create_draft_version, hg]
      refine contig_create ?_ _ _
      intro x
      exact hc x
  | updateDraft aid vn u =>
    simp only [applyOp]
    cases hg : get_article_version db aid vn with
    | none => simp only [update_draft_version, hg]; exact hc
    | some ver =>
      simp only [update_draft_version, hg]
      by_cases hd : ver.is_draft = true
      · rw [if_pos hd]
        intro x
        show numsOf (updateFirstVersion db.versions aid vn (applyDraftUpdate u)) x
          = List.range' 1
            (numsOf (updateFirstVersion db.versions aid vn (applyDraftUpdate u)) x).length
        rw [numsOf_updateFirst db.versions aid vn x (applyDraftUpdate u)
          (fun v => rfl) (fun v => rfl)]
        exact hc x
      · rw [if_neg hd]
        exact hc
  | publish aid vn =>
    simp only [applyOp]
    cases hg : get_article db aid with
    | none => simp only [publish_draft_version, hg]; exact hc
    | some art =>
      cases hv : get_article_version db aid vn with
      | none => simp only [publish_draft_version, hg, hv]; exact hc
      | some ver =>
        simp only [publish_draft_version, hg, hv]
        by_cases hd : ver.is_draft = true
        · rw [if_pos hd]
          apply contig_create
          intro x
          show numsOf (updateFirstVersion db.versions aid vn
              (fun v => { v with is_draft := false, published_at := some (db.clock + 1) })) x
            = List.range' 1
              (numsOf (updateFirstVersion db.versions aid vn
                (fun v => { v with is_draft := false, published_at := some (db.clock + 1) })) x).length
          rw [numsOf_updateFirst db.versions aid vn x
            (fun v => { v with is_draft := false, published_at := some (db.clock + 1) })
            (fun v => rfl) (fun v => rfl)]
          exact hc x
        · rw [if_neg hd]
          exact hc
  | rollback aid vn =>
    simp only [applyOp]
    cases hg : get_article db aid with
    | none => simp only [rollback_article_to_version, hg]; exact hc
    | some art =>
      cases hv : get_article_version db aid vn with
      | none => simp only [rollback_article_to_version, hg, hv]; exact hc
      | some ver =>
        simp only [rollback_article_to_version, hg, hv]
        by_cases hd : ver.is_draft = true
        · rw [if_pos hd]
          exact hc
        · rw [if_neg hd]
          refine contig_create ?_ _ _
          intro x
          exact hc x

theorem contig_runOps (ops : List Op) : ContigDB (runOps ops) := by
  suffices h : ∀ db, ContigDB db → ContigDB (ops.foldl applyOp db) by
    exact h emptyDB (fun aid => rfl)
  induction ops with
  | nil => exact fun db h => h
  | cons op ops ih => exact fun db h => ih _ (contig_applyOp h op)

/-- No operation ever removes or renumbers an existing revision: the
version-number list of every article is only ever extended. -/
theorem versionNums_create_of_eq {db db2 : DB} (a : Article) (d : Bool)
    (h : versionNums db2 aid = versionNums db aid) :
    ∃ t, versionNums ((_create_article_version db2 a d).2) aid
      = versionNums db aid ++ t :=
  ⟨_, by rw [versionNums_create, h]⟩

theorem versionNums_applyOp_extend (db : DB) (op : Op) (aid : Nat) :
    ∃ t, versionNums (applyOp db op) aid = versionNums db aid ++ t := by
  cases op with
  | create t c tg w p =>
    simp only [applyOp, create_article]
    exact ⟨_, versionNums_create _ _ _ _⟩
  | update aid0 u =>
    simp only [applyOp]
    cases hg : get_article db aid0 with
    | none => exact ⟨[], by simp [update_article, hg]⟩
    | some a =>
      simp only [update_article, hg]
      exact ⟨_, versionNums_create _ _ _ _⟩
  | createDraft aid0 =>
    simp only [applyOp]
    cases hg : get_article db aid0 with
    | none => exact ⟨[], by simp [create_draft_version, hg]⟩
    | some a =>
      simp only [create_draft_version, hg]
      exact ⟨_, versionNums_create _ _ _ _⟩
  | updateDraft aid0 vn u =>
    simp only [applyOp]
    cases hg : get_article_version db aid0 vn with
    | none => exact ⟨[], by simp [update_draft_version, hg]⟩
    | some ver =>
      by_cases hd : ver.is_draft = true
      · simp only [update_draft_version, hg, if_pos hd]
        refine ⟨[], ?_⟩
        rw [List.append_nil]
        show numsOf (updateFirstVersion db.versions aid0 vn (applyDraftUpdate u)) aid = _
        exact numsOf_updateFirst db.versions aid0 vn aid (applyDraftUpdate u)
          (fun v => rfl) (fun v => rfl)
      · exact ⟨[], by simp [update_draft_version, hg, if_neg hd]⟩
  | publish aid0 vn =>
    simp only [applyOp]
    cases hg : get_article db aid0 with
    | none => exact ⟨[], by simp [publish_draft_version, hg]⟩
    | some art =>
      cases hv : get_article_version db aid0 vn with
      | none => exact ⟨[], by simp [publish_draft_version, hg, hv]⟩
      | some ver =>
        by_cases hd : ver.is_draft = true
        · simp only [publish_draft_version, hg, hv, if_pos hd]
          refine versionNums_create_of_eq _ _ ?_
          show numsOf (updateFirstVersion db.versions aid0 vn
              (fun v => { v with is_draft := false, published_at := some (db.clock + 1) })) aid
            = numsOf db.versions aid
          exact numsOf_updateFirst db.versions aid0 vn aid
            (fun v => { v with is_draft := false, published_at := some (db.clock + 1) })
            (fun v => rfl) (fun v => rfl)
        · exact ⟨[], by simp [publish_draft_version, hg, hv, if_neg hd]⟩
  | rollback aid0 vn =>
    simp only [applyOp]
    cases hg : get_article db aid0 with
    | none => exact ⟨[], by simp [rollback_article_to_version, hg]⟩
    | some art =>
      cases hv : get_article_version db aid0 vn with
      | none => exact ⟨[], by simp [rollback_article_to_version, hg, hv]⟩
      | some ver =>
        by_cases hd : ver.is_draft = true
        · exact ⟨[], by simp [rollback_article_to_version, hg, hv, if_pos hd]⟩
        · simp only [rollback_article_to_version, hg, hv, if_neg hd]
          exact ⟨_, versionNums_create _ _ _ _⟩

/-!  Facts recovered from successful row lookups. -/

theorem get_article_id {db : DB} {aid : Nat} {a : Article}
    (h : get_article db aid = some a) : a.id = aid ∧ a.is_active = true := by
  have hp := List.find?_some h
  simp only [Bool.and_eq_true, beq_iff_eq] at hp
  exact hp

theorem get_article_version_keys {db : DB} {aid vn : Nat} {v : ArticleVersion}
    (h : get_article_version db aid vn = some v) :
    v.article_id = aid ∧ v.version_number = vn := by
  have hp := List.find?_some h
  simp only [Bool.and_eq_true, beq_iff_eq] at hp
  exact hp

/-!  Published-revision bookkeeping. -/

theorem pubsOf_concat_pub (vs : List ArticleVersion) (v : ArticleVersion) (aid : Nat)
    (hid : v.article_id = aid) (hd : v.is_draft = false) :
    pubsOf (vs ++ [v]) aid = pubsOf vs aid ++ [v] := by
  rw [pubsOf_append, pubsOf_cons]
  simp [pubsOf, hid, hd]

theorem pubsOf_concat_len (vs : List ArticleVersion) (v : ArticleVersion) (aid : Nat)
    (hid : v.article_id = aid) (hd : v.is_draft = false) :
    (pubsOf (vs ++ [v]) aid).length = (pubsOf vs aid).length + 1 := by
  rw [pubsOf_concat_pub vs v aid hid hd]
  simp

/-- After snapshotting a published version of `a`, the most recently
created published revision is that snapshot, and it carries `a`'s
fields. -/
theorem lastPublished_after_create (db : DB) (a : Article) (aid : Nat)
    (hid : a.id = aid) :
    ∃ pv, lastPublished ((_create_article_version db a false).2) aid = some pv ∧
      pv.title = a.title ∧ pv.content = a.content ∧ pv.tags = a.tags ∧
      pv.weight_score = a.weight_score ∧ pv.is_public = a.is_public := by
  refine ⟨(_create_article_version db a false).1, ?_, rfl, rfl, rfl, rfl, rfl⟩
  show (pubsOf (db.versions ++ [(_create_article_version db a false).1]) aid).getLast?
    = some (_create_article_version db a false).1
  rw [pubsOf_concat_pub db.versions _ aid hid rfl, List.getLast?_concat]

theorem get_article_create (db : DB) (a : Article) (d : Bool) (aid : Nat) :
    get_article ((_create_article_version db a d).2) aid = get_article db aid := rfl

theorem next_eq_of_numsEq {db db2 : DB} {aid : Nat}
    (h : versionNums db2 aid = versionNums db aid) :
    _next_version_number db2 aid = _next_version_number db aid := by
  unfold _next_version_number
  rw [h]

/-- No existing revision of an article carries the next version number:
every existing number is at most the running maximum. -/
theorem find?_version_next_none (db : DB) (aid : Nat) :
    db.versions.find? (fun v =>
      v.article_id == aid && v.version_number == _next_version_number db aid) = none := by
  rw [List.find?_eq_none]
  intro v hmem hp
  simp only [Bool.and_eq_true, beq_iff_eq] at hp
  have hvn : v.version_number ∈ versionNums db aid := by
    simp only [versionNums, numsOf, List.mem_map, List.mem_filter]
    exact ⟨v, ⟨hmem, by simp [hp.1]⟩, rfl⟩
  have hle := mem_le_foldl_max (versionNums db aid) 0 v.version_number hvn
  have := hp.2
  unfold _next_version_number at this
  omega

/-- Flipping the draft found at `(aid, vn)` to published increases the
article's published-revision count by one. -/
theorem pubsOf_updateFirst_flip (vs : List ArticleVersion) (aid vn : Nat)
    (f : ArticleVersion → ArticleVersion)
    (hid : ∀ v, (f v).article_id = v.article_id)
    (hdr : ∀ v, (f v).is_draft = false)
    (ver : ArticleVersion)
    (hfind : vs.find? (fun v => v.article_id == aid && v.version_number == vn) = some ver)
    (hdraft : ver.is_draft = true) :
    (pubsOf (updateFirstVersion vs aid vn f) aid).length
      = (pubsOf vs aid).length + 1 := by
  induction vs with
  | nil => simp at hfind
  | cons v rest ih =>
    by_cases hv : (v.article_id == aid && v.version_number == vn) = true
    · simp only [List.find?, hv] at hfind
      obtain rfl : v = ver := by simpa using hfind
      have hvid : v.article_id = aid := by
        have := hv
        simp only [Bool.and_eq_true, beq_iff_eq] at this
        exact this.1
      have h1 : (v.article_id == aid && !v.is_draft) = false := by
        simp [hdraft]
      have h2 : ((f v).article_id == aid && !(f v).is_draft) = true := by
        simp [hid, hdr, hvid]
      unfold updateFirstVersion
      rw [if_pos hv, pubsOf_cons, pubsOf_cons, h1, h2]
      simp
    · have hv' : (v.article_id == aid && v.version_number == vn) = false := by
        simpa using hv
      simp only [List.find?, hv'] at hfind
      unfold updateFirstVersion
      rw [if_neg (by simpa using hv), pubsOf_cons, pubsOf_cons]
      simp only [List.length_append, ih hfind]
      omega

/-- The `(article_id, version_number)` keys of all revision rows, in
creation order. -/
def versionKeys (db : DB) : List (Nat × Nat) :=
  db.versions.map (fun v => (v.article_id, v.version_number))

theorem publishDB_versions (db : DB) (aid vn : Nat) (ver : ArticleVersion) :
    (publishDB db aid vn ver).versions
      = updateFirstVersion db.versions aid vn
          (fun v => { v with is_draft := false, published_at := some (db.clock + 1) }) := rfl

/-- C2: starting from an empty store, after any sequence of create,
update, create-draft, update-draft, publish and rollback operations each
document's version numbers are exactly `1..N`, with no gaps and no
repeats, in creation order (each new revision getting
`_next_version_number = max + 1`); and no single operation ever removes
or renumbers an existing revision — the number list is only ever
extended at its end. -/
theorem version_numbers_contiguous :
    (∀ ops : List Op, ∀ aid,
      versionNums (runOps ops) aid
        = List.range' 1 (versionNums (runOps ops) aid).length) ∧
    (∀ db op aid, ∃ t, versionNums (applyOp db op) aid = versionNums db aid ++ t) :=
  ⟨fun ops aid => contig_runOps ops aid, versionNums_applyOp_extend⟩

/-- C1: immediately after a successful `publish_draft_version` or
`rollback_article_to_version`, the live article (as stored and as
returned) has title, content, tags, weight score and public flag equal
to those of the most recently created published revision of the
document. -/
theorem live_equals_last_published :
    (∀ db aid vn art db2,
      publish_draft_version db aid vn = some (art, db2) →
      get_article db2 aid = some art ∧
      ∃ pv, lastPublished db2 aid = some pv ∧
        pv.title = art.title ∧ pv.content = art.content ∧ pv.tags = art.tags ∧
        pv.weight_score = art.weight_score ∧ pv.is_public = art.is_public) ∧
    (∀ db aid vn art db2,
      rollback_article_to_version db aid vn = some (art, db2) →
      get_article db2 aid = some art ∧
      ∃ pv, lastPublished db2 aid = some pv ∧
        pv.title = art.title ∧ pv.content = art.content ∧ pv.tags = art.tags ∧
        pv.weight_score = art.weight_score ∧ pv.is_public = art.is_public) := by
  constructor
  · intro db aid vn art db2 h
    cases hg : get_article db aid with
    | none => simp [publish_draft_version, hg] at h
    | some art0 =>
      cases hv : get_article_version db aid vn with
      | none => simp [publish_draft_version, hg, hv] at h
      | some ver =>
        simp only [publish_draft_version, hg, hv] at h
        by_cases hd : ver.is_draft = true
        · rw [if_pos hd] at h
          simp only [Option.some.injEq, Prod.mk.injEq] at h
          obtain ⟨h1, h2⟩ := h
          subst h1
          subst h2
          constructor
          · rw [get_article_create]
            exact get_article_updateRow db aid (applySnapshot ver)
              (fun x => rfl) (fun x => rfl) art0 hg
          · refine lastPublished_after_create _ _ aid ?_
            exact (get_article_id hg).1
        · rw [if_neg hd] at h
          simp at h
  · intro db aid vn art db2 h
    cases hg : get_article db aid with
    | none => simp [rollback_article_to_version, hg] at h
    | some art0 =>
      cases hv : get_article_version db aid vn with
      | none => simp [rollback_article_to_version, hg, hv] at h
      | some ver =>
        simp only [rollback_article_to_version, hg, hv] at h
        by_cases hd : ver.is_draft = true
        · rw [if_pos hd] at h
          simp at h
        · rw [if_neg hd] at h
          simp only [Option.some.injEq, Prod.mk.injEq] at h
          obtain ⟨h1, h2⟩ := h
          subst h1
          subst h2
          constructor
          · rw [get_article_create]
            exact get_article_updateRow db aid (applySnapshot ver)
              (fun x => rfl) (fun x => rfl) art0 hg
          · refine lastPublished_after_create _ _ aid ?_
            exact (get_article_id hg).1

/-- C5: creating a draft and immediately publishing it (no draft update
in between) leaves the live article's title, content, tags, weight score
and public flag equal to their values at draft-creation time. -/
theorem create_then_publish_roundtrip :
    ∀ db aid art d db1, get_article db aid = some art →
      create_draft_version db aid = some (d, db1) →
      ∃ art2 db2,
        publish_draft_version db1 aid d.version_number = some (art2, db2) ∧
        art2.title = art.title ∧ art2.content = art.content ∧
        art2.tags = art.tags ∧ art2.weight_score = art.weight_score ∧
        art2.is_public = art.is_public := by
  intro db aid art d db1 hg hc
  simp only [create_draft_version, hg, Option.some.injEq] at hc
  have h1 : (_create_article_version db art true).1 = d := by rw [hc]
  have h2 : (_create_article_version db art true).2 = db1 := by rw [hc]
  subst h1
  subst h2
  have haid : art.id = aid := (get_article_id hg).1
  have hga : get_article ((_create_article_version db art true).2) aid = some art := by
    rw [get_article_create]; exact hg
  have hdv : ((_create_article_version db art true).1).version_number
      = _next_version_number db aid := by
    show _next_version_number db art.id = _next_version_number db aid
    rw [haid]
  have hpd : (((_create_article_version db art true).1).article_id == aid
      && ((_create_article_version db art true).1).version_number
        == _next_version_number db aid) = true := by
    simp only [Bool.and_eq_true, beq_iff_eq]
    exact ⟨haid, hdv⟩
  have hfind : get_article_version ((_create_article_version db art true).2) aid
      ((_create_article_version db art true).1).version_number
      = some ((_create_article_version db art true).1) := by
    show (db.versions ++ [(_create_article_version db art true).1]).find?
      (fun v => v.article_id == aid
        && v.version_number == ((_create_article_version db art true).1).version_number)
      = _
    rw [hdv]
    rw [find?_append_none _ db.versions _ (find?_version_next_none db aid)]
    simp only [List.find?, hpd]
  refine ⟨artRowUpdate ((_create_article_version db art true).2).clock
      (applySnapshot ((_create_article_version db art true).1)) art,
    (_create_article_version
      (publishDB ((_create_article_version db art true).2) aid
        ((_create_article_version db art true).1).version_number
        ((_create_article_version db art true).1))
      (artRowUpdate ((_create_article_version db art true).2).clock
        (applySnapshot ((_create_article_version db art true).1)) art)
      false).2, ?_, rfl, rfl, rfl, rfl, rfl⟩
  simp only [publish_draft_version, hga, hfind]
  rw [if_pos (show ((_create_article_version db art true).1).is_draft = true from rfl)]

/-- C3: `publish_draft_version` succeeds exactly when the document is
found and a draft revision exists at the requested number (returning
`none` otherwise, also when the revision exists but is not a draft); on
success it applies the draft's snapshot fields to the live article,
marks the draft revision published with `published_at` set, and appends
one extra published snapshot with the next version number, so the
document gains exactly two published revisions. -/
theorem publish_draft_spec :
    (∀ db aid vn, publish_draft_version db aid vn = none ↔
      get_article db aid = none ∨ get_article_version db aid vn = none ∨
      ∃ ver, get_article_version db aid vn = some ver ∧ ver.is_draft = false) ∧
    (∀ db aid vn art db2, publish_draft_version db aid vn = some (art, db2) →
      ∃ ver, get_article_version db aid vn = some ver ∧ ver.is_draft = true ∧
        art.title = ver.title ∧ art.content = ver.content ∧ art.tags = ver.tags ∧
        art.weight_score = ver.weight_score ∧ art.is_public = ver.is_public ∧
        get_article db2 aid = some art ∧
        (∃ pver, get_article_version db2 aid vn = some pver ∧
          pver.is_draft = false ∧ pver.published_at.isSome = true) ∧
        versionNums db2 aid = versionNums db aid ++ [_next_version_number db aid] ∧
        (publishedVersionsOf db2 aid).length
          = (publishedVersionsOf db aid).length + 2) := by
  constructor
  · intro db aid vn
    constructor
    · intro h
      cases hg : get_article db aid with
      | none => exact Or.inl rfl
      | some art0 =>
        cases hv : get_article_version db aid vn with
        | none => exact Or.inr (Or.inl rfl)
        | some ver =>
          by_cases hd : ver.is_draft = true
          · simp [publish_draft_version, hg, hv, if_pos hd] at h
          · exact Or.inr (Or.inr ⟨ver, rfl, by simpa using hd⟩)
    · intro h
      rcases h with hg | hv | ⟨ver, hv, hd⟩
      · simp [publish_draft_version, hg]
      · cases hg : get_article db aid with
        | none => simp [publish_draft_version, hg]
        | some a => simp [publish_draft_version, hg, hv]
      · cases hg : get_article db aid with
        | none => simp [publish_draft_version, hg]
        | some a => simp [publish_draft_version, hg, hv, hd]
  · intro db aid vn art db2 h
    cases hg : get_article db aid with
    | none => simp [publish_draft_version, hg] at h
    | some art0 =>
      cases hv : get_article_version db aid vn with
      | none => simp [publish_draft_version, hg, hv] at h
      | some ver =>
        simp only [publish_draft_version, hg, hv] at h
        by_cases hd : ver.is_draft = true
        · rw [if_pos hd] at h
          simp only [Option.some.injEq, Prod.mk.injEq] at h
          obtain ⟨h1, h2⟩ := h
          subst h1
          subst h2
          have haid : art0.id = aid := (get_article_id hg).1
          refine ⟨ver, rfl, hd, rfl, rfl, rfl, rfl, rfl, ?_, ?_, ?_, ?_⟩
          · rw [get_article_create]
            exact get_article_updateRow db aid (applySnapshot ver)
              (fun x => rfl) (fun x => rfl) art0 hg
          · refine ⟨{ ver with is_draft := false, published_at := some (db.clock + 1) },
              ?_, rfl, rfl⟩
            show ((publishDB db aid vn ver).versions
              ++ [(_create_article_version (publishDB db aid vn ver)
                (artRowUpdate db.clock (applySnapshot ver) art0) false).1]).find?
              (fun v => v.article_id == aid && v.version_number == vn)
              = some { ver with is_draft := false, published_at := some (db.clock + 1) }
            rw [publishDB_versions]
            exact find?_append_some _ _ _ _
              (find?_updateFirstVersion db.versions aid vn
                (fun v => { v with is_draft := false, published_at := some (db.clock + 1) })
                (fun v => rfl) (fun v => rfl) ver hv)
          · have hnums : versionNums (publishDB db aid vn ver) aid
                = versionNums db aid := by
              show numsOf (publishDB db aid vn ver).versions aid = numsOf db.versions aid
              rw [publishDB_versions]
              exact numsOf_updateFirst db.versions aid vn aid
                (fun v => { v with is_draft := false, published_at := some (db.clock + 1) })
                (fun v => rfl) (fun v => rfl)
            have hid2 : ((artRowUpdate db.clock (applySnapshot ver) art0).id == aid)
                = true := by
              show (art0.id == aid) = true
              simp [haid]
            have hid3 : (artRowUpdate db.clock (applySnapshot ver) art0).id = aid := haid
            rw [versionNums_create, hnums, if_pos hid2, hid3,
              next_eq_of_numsEq hnums]
          · show (pubsOf ((publishDB db aid vn ver).versions
              ++ [(_create_article_version (publishDB db aid vn ver)
                (artRowUpdate db.clock (applySnapshot ver) art0) false).1]) aid).length
              = (pubsOf db.versions aid).length + 2
            rw [pubsOf_concat_len (publishDB db aid vn ver).versions
              ((_create_article_version (publishDB db aid vn ver)
                (artRowUpdate db.clock (applySnapshot ver) art0) false).1) aid haid rfl]
            rw [publishDB_versions]
            rw [pubsOf_updateFirst_flip db.versions aid vn
              (fun v => { v with is_draft := false, published_at := some (db.clock + 1) })
              (fun v => rfl) (fun v => rfl) ver hv hd]
        · rw [if_neg hd] at h
          simp at h

/-- C4: `rollback_article_to_version` succeeds exactly when the document
is found and a published (non-draft) revision exists at the requested
number (returning `none` when the revision is absent or is a draft); on
success it copies that revision's snapshot fields onto the live article
and appends one brand-new published revision with the next version
number, so the revision keys are only extended and the document's
maximum version number never decreases. -/
theorem rollback_spec :
    (∀ db aid vn, rollback_article_to_version db aid vn = none ↔
      get_article db aid = none ∨ get_article_version db aid vn = none ∨
      ∃ ver, get_article_version db aid vn = some ver ∧ ver.is_draft = true) ∧
    (∀ db aid vn art db2, rollback_article_to_version db aid vn = some (art, db2) →
      ∃ ver, get_article_version db aid vn = some ver ∧ ver.is_draft = false ∧
        art.title = ver.title ∧ art.content = ver.content ∧ art.tags = ver.tags ∧
        art.weight_score = ver.weight_score ∧ art.is_public = ver.is_public ∧
        get_article db2 aid = some art ∧
        versionNums db2 aid = versionNums db aid ++ [_next_version_number db aid] ∧
        versionKeys db2 = versionKeys db ++ [(aid, _next_version_number db aid)] ∧
        (versionNums db aid).foldl Nat.max 0
          ≤ (versionNums db2 aid).foldl Nat.max 0) := by
  constructor
  · intro db aid vn
    constructor
    · intro h
      cases hg : get_article db aid with
      | none => exact Or.inl rfl
      | some art0 =>
        cases hv : get_article_version db aid vn with
        | none => exact Or.inr (Or.inl rfl)
        | some ver =>
          by_cases hd : ver.is_draft = true
          · exact Or.inr (Or.inr ⟨ver, rfl, hd⟩)
          · simp [rollback_article_to_version, hg, hv, if_neg hd] at h
    · intro h
      rcases h with hg | hv | ⟨ver, hv, hd⟩
      · simp [rollback_article_to_version, hg]
      · cases hg : get_article db aid with
        | none => simp [rollback_article_to_version, hg]
        | some a => simp [rollback_article_to_version, hg, hv]
      · cases hg : get_article db aid with
        | none => simp [rollback_article_to_version, hg]
        | some a => simp [rollback_article_to_version, hg, hv, hd]
  · intro db aid vn art db2 h
    cases hg : get_article db aid with
    | none => simp [rollback_article_to_version, hg] at h
    | some art0 =>
      cases hv : get_article_version db aid vn with
      | none => simp [rollback_article_to_version, hg, hv] at h
      | some ver =>
        simp only [rollback_article_to_version, hg, hv] at h
        by_cases hd : ver.is_draft = true
        · rw [if_pos hd] at h
          simp at h
        · rw [if_neg hd] at h
          simp only [Option.some.injEq, Prod.mk.injEq] at h
          obtain ⟨h1, h2⟩ := h
          subst h1
          subst h2
          have haid : art0.id = aid := (get_article_id hg).1
          have hnumseq : versionNums ((_create_article_version
              (updateArticleRow db aid (applySnapshot ver))
              (artRowUpdate db.clock (applySnapshot ver) art0) false).2) aid
              = versionNums db aid ++ [_next_version_number db aid] := by
            have hid2 : ((artRowUpdate db.clock (applySnapshot ver) art0).id == aid)
                = true := by
              show (art0.id == aid) = true
              simp [haid]
            have hid3 : (artRowUpdate db.clock (applySnapshot ver) art0).id = aid := haid
            have hnums : versionNums (updateArticleRow db aid (applySnapshot ver)) aid
                = versionNums db aid := rfl
            rw [versionNums_create, hnums, if_pos hid2, hid3,
              next_eq_of_numsEq hnums]
          refine ⟨ver, rfl, by simpa using hd, rfl, rfl, rfl, rfl, rfl, ?_, hnumseq, ?_, ?_⟩
          · rw [get_article_create]
            exact get_article_updateRow db aid (applySnapshot ver)
              (fun x => rfl) (fun x => rfl) art0 hg
          · show (db.versions ++ [(_create_article_version
              (updateArticleRow db aid (applySnapshot ver))
              (artRowUpdate db.clock (applySnapshot ver) art0) false).1]).map
              (fun v => (v.article_id, v.version_number))
              = versionKeys db ++ [(aid, _next_version_number db aid)]
            rw [List.map_append]
            have h1 : ((_create_article_version
                (updateArticleRow db aid (applySnapshot ver))
                (artRowUpdate db.clock (applySnapshot ver) art0) false).1).article_id
                = aid := haid
            have h2 : ((_create_article_version
                (updateArticleRow db aid (applySnapshot ver))
                (artRowUpdate db.clock (applySnapshot ver) art0) false).1).version_number
                = _next_version_number db aid := by
              show _next_version_number db art0.id = _next_version_number db aid
              rw [haid]
            simp only [List.map_cons, List.map_nil, h1, h2]
            rfl
          · rw [hnumseq, List.foldl_append]
            show (versionNums db aid).foldl Nat.max 0
              ≤ Nat.max ((versionNums db aid).foldl Nat.max 0) (_next_version_number db aid)
            exact Nat.le_max_left _ _

/-!  Concrete instances for the hypotheses of the theorems above: one
article created in an empty store, then a draft on it. -/

def dummyArticle : Article :=
  { id := 0, title := "", content := "", tags := [], weight_score := 0,
    is_active := false, is_public := false, view_count := 0, helpful_votes := 0,
    unhelpful_votes := 0, created_at := 0, updated_at := 0 }

/-- One article (id 1, version 1 published). -/
def dbW0 : DB := (create_article emptyDB "Setup" "Body" ["tag1"] none none).2

/-- The article row of `dbW0`. -/
def artW : Article := (create_article emptyDB "Setup" "Body" ["tag1"] none none).1

def dummyVersion : ArticleVersion :=
  { article_id := 0, version_number := 0, title := "", content := "",
    tags := [], weight_score := 0, is_public := false, is_draft := false,
    created_at := 0, published_at := none }

/-- The draft (version 2) created on `dbW0`, with the resulting store. -/
def draftResW : ArticleVersion × DB :=
  match create_draft_version dbW0 1 with
  | some x => x
  | none => (dummyVersion, emptyDB)

def dbW1 : DB := draftResW.2

/-- The result of publishing the draft at version 2 of `dbW1`. -/
def pubResW : Article × DB :=
  match publish_draft_version dbW1 1 2 with
  | some x => x
  | none => (dummyArticle, emptyDB)

/-- The result of rolling `dbW0` back to version 1. -/
def rbResW : Article × DB :=
  match rollback_article_to_version dbW0 1 1 with
  | some x => x
  | none => (dummyArticle, emptyDB)

/-- Witness for C1 at a concrete publish. -/
theorem live_equals_last_published_witness :
    get_article pubResW.2 1 = some pubResW.1 := by
  obtain ⟨hget, _⟩ :=
    live_equals_last_published.1 dbW1 1 2 pubResW.1 pubResW.2 (by decide)
  exact hget

/-- Witness for C3 at a concrete publish: exactly two more published
revisions. -/
theorem publish_draft_spec_witness :
    (publishedVersionsOf pubResW.2 1).length
      = (publishedVersionsOf dbW1 1).length + 2 := by
  obtain ⟨ver, hver, hdr, ht, hc, htg, hw, hp, hga, hmark, hnums, hcount⟩ :=
    publish_draft_spec.2 dbW1 1 2 pubResW.1 pubResW.2 (by decide)
  exact hcount

/-- Witness for C4 at a concrete rollback: one new key is appended. -/
theorem rollback_spec_witness :
    versionKeys rbResW.2 = versionKeys dbW0 ++ [(1, _next_version_number dbW0 1)] := by
  obtain ⟨ver, hver, hdr, ht, hc, htg, hw, hp, hga, hnums, hkeys, hmax⟩ :=
    rollback_spec.2 dbW0 1 1 rbResW.1 rbResW.2 (by decide)
  exact hkeys

/-- Witness for C5 at a concrete draft-then-publish. -/
theorem create_then_publish_roundtrip_witness :
    ∃ art2 db2,
      publish_draft_version draftResW.2 1 draftResW.1.version_number
        = some (art2, db2) ∧
      art2.title = artW.title ∧ art2.content = artW.content ∧
      art2.tags = artW.tags ∧ art2.weight_score = artW.weight_score ∧
      art2.is_public = artW.is_public :=
  create_then_publish_roundtrip dbW0 1 artW draftResW.1 draftResW.2
    (by decide) (by decide)

/-!  C6: the spec-level per-token classification.  These three
definitions follow the words of the (amended) specification of the
query parser, for comparison against `_parse_search_query`. -/

/-- Spec: a token starting with `+` yields a required term — its body
stripped to word characters and hyphens, lowercased — unless the
stripped body is empty. -/
def specRequired (tok : String) : Option String :=
  match tok.data with
  | [] => none
  | c :: body =>
    if c = '+' then
      if (stripChars body).isEmpty then none
      else some (String.mk ((stripChars body).map Char.toLower))
    else none

/-- Spec: a token starting with `-` yields an excluded term — its body
stripped and lowercased — unless the stripped body is empty. -/
def specExcluded (tok : String) : Option String :=
  match tok.data with
  | [] => none
  | c :: body =>
    if c = '+' then none
    else if c = '-' then
      if (stripChars body).isEmpty then none
      else some (String.mk ((stripChars body).map Char.toLower))
    else none

/-- Spec (amended): any other token yields an optional term that is the
*original token lowercased, not stripped*, unless the token's stripped
body is empty. -/
def specOptional (tok : String) : Option String :=
  match tok.data with
  | [] => none
  | c :: body =>
    if c = '+' then none
    else if c = '-' then none
    else if (stripChars (c :: body)).isEmpty then none
    else some (lowerStr tok)

theorem parseTokens_eq (ts : List String) :
    parseTokens ts
      = (ts.filterMap specRequired, ts.filterMap specExcluded,
         ts.filterMap specOptional) := by
  induction ts with
  | nil => rfl
  | cons tok rest ih =>
    simp only [parseTokens, ih, List.filterMap_cons]
    cases hdata : tok.data with
    | nil => simp [specRequired, specExcluded, specOptional, hdata]
    | cons c body =>
      by_cases hplus : c = '+'
      · by_cases hempty : (stripChars body).isEmpty = true
        · simp [specRequired, specExcluded, specOptional, hdata, hplus, hempty]
        · simp [specRequired, specExcluded, specOptional, hdata, hplus, hempty]
      · by_cases hminus : c = '-'
        · by_cases hempty : (stripChars body).isEmpty = true
          · simp [specRequired, specExcluded, specOptional, hdata, hplus, hminus, hempty]
          · simp [specRequired, specExcluded, specOptional, hdata, hplus, hminus, hempty]
        · by_cases hempty : (stripChars (c :: body)).isEmpty = true
          · simp [specRequired, specExcluded, specOptional, hdata, hplus, hminus, hempty]
          · simp [specRequired, specExcluded, specOptional, hdata, hplus, hminus, hempty]

/-- C6 counterexample: the optional term emitted for the token
`gamma!` is the unstripped original token `gamma!`, not the stripped
body `gamma` the claim prescribes for all three sets. -/
theorem parse_optional_unstripped_cex :
    (_parse_search_query "gamma!").2.2 = ["gamma!"] ∧
    String.mk ((stripChars ("gamma!".data)).map Char.toLower) = "gamma" ∧
    ("gamma!" : String) ≠ "gamma" := by decide

/-- C6 (amended): the parser splits on whitespace and classifies each
token by its first character; required and excluded terms are the token
body stripped of everything but word characters and hyphens, then
lowercased; optional terms are the whole original token lowercased
*without stripping*; a token whose stripped body is empty is discarded
from all three sets. -/
theorem parse_query_amended (q : String) :
    _parse_search_query q
      = ((splitTokens q).filterMap specRequired,
         (splitTokens q).filterMap specExcluded,
         (splitTokens q).filterMap specOptional) := by
  unfold _parse_search_query
  by_cases hq : q = ""
  · subst hq
    rfl
  · rw [if_neg hq]
    exact parseTokens_eq (splitTokens q)

/-- C7: for a non-empty parsed query, `search_articles` returns only
active (and, under `public_only`, public) articles for which every
required term matches, no excluded term matches, and — when optional
terms exist and required terms do not — at least one optional term
matches (optional terms do not filter when required terms exist, as the
`searchPred` condition shows); the result is ordered by weight
descending with ties by last update descending, and truncated to the
limit (complete when everything fits); and `"+alpha -beta gamma"` parses
to required `alpha`, excluded `beta`, optional `gamma`. -/
theorem search_nonempty_spec :
    ∀ db q limit po, (q.data.all Char.isWhitespace) = false →
      ((_parse_search_query q).1.isEmpty && (_parse_search_query q).2.1.isEmpty
        && (_parse_search_query q).2.2.isEmpty) = false →
      (∀ a ∈ search_articles db q limit po,
        a.is_active = true ∧ (po = true → a.is_public = true) ∧
        (∀ t ∈ (_parse_search_query q).1, _match_condition db a t = true) ∧
        (∀ t ∈ (_parse_search_query q).2.1, _match_condition db a t = false) ∧
        ((_parse_search_query q).2.2 ≠ [] → (_parse_search_query q).1 = [] →
          ∃ t ∈ (_parse_search_query q).2.2, _match_condition db a t = true)) ∧
      List.Sorted searchRel (search_articles db q limit po) ∧
      (search_articles db q limit po).length ≤ limit ∧
      ((db.articles.filter (searchPred db po (_parse_search_query q).1
          (_parse_search_query q).2.1 (_parse_search_query q).2.2)).length ≤ limit →
        ∀ a ∈ db.articles,
          searchPred db po (_parse_search_query q).1 (_parse_search_query q).2.1
            (_parse_search_query q).2.2 a = true →
          a ∈ search_articles db q limit po) ∧
      _parse_search_query "+alpha -beta gamma" = (["alpha"], ["beta"], ["gamma"]) := by
  intro db q limit po hq hp
  have hs : search_articles db q limit po
      = ((db.articles.filter (searchPred db po (_parse_search_query q).1
          (_parse_search_query q).2.1 (_parse_search_query q).2.2)).insertionSort
        searchRel).take limit := by
    simp only [search_articles]
    rw [if_neg (by simp [hq]), if_neg (by simp [hp])]
  refine ⟨?_, ?_, ?_, ?_, by decide⟩
  · intro a ha
    rw [hs] at ha
    have ha2 : a ∈ (db.articles.filter (searchPred db po (_parse_search_query q).1
        (_parse_search_query q).2.1 (_parse_search_query q).2.2)).insertionSort
          searchRel :=
      List.take_subset limit _ ha
    have ha3 := (List.mem_insertionSort searchRel).mp ha2
    have hP := (List.mem_filter.mp ha3).2
    simp only [searchPred, Bool.and_eq_true] at hP
    obtain ⟨⟨⟨hbase, hreq⟩, hopt⟩, hexc⟩ := hP
    simp only [baseFilter, Bool.and_eq_true] at hbase
    refine ⟨hbase.1, ?_, ?_, ?_, ?_⟩
    · intro hpo
      have h2 := hbase.2
      rw [hpo] at h2
      simpa using h2
    · intro t ht
      exact List.all_eq_true.mp hreq t ht
    · intro t ht
      have h2 := List.all_eq_true.mp hexc t ht
      simpa using h2
    · intro hne hreqe
      have h1 : ((_parse_search_query q).2.2).isEmpty = false := by
        cases hlst : (_parse_search_query q).2.2 with
        | nil => exact absurd hlst hne
        | cons x xs => rfl
      have h2 : ((_parse_search_query q).1).isEmpty = true := by
        rw [hreqe]; rfl
      rw [h1, h2] at hopt
      simp only [Bool.not_false, if_pos] at hopt
      simpa using hopt
  · rw [hs]
    exact List.Pairwise.sublist (List.take_sublist limit _)
      (List.sorted_insertionSort searchRel _)
  · rw [hs]
    exact List.length_take_le limit _
  · intro hlen a hmem hPa
    rw [hs]
    have hlen2 : ((db.articles.filter (searchPred db po (_parse_search_query q).1
        (_parse_search_query q).2.1 (_parse_search_query q).2.2)).insertionSort
          searchRel).length ≤ limit := by
      rw [List.length_insertionSort]
      exact hlen
    rw [List.take_of_length_le hlen2]
    exact (List.mem_insertionSort searchRel).mpr (List.mem_filter.mpr ⟨hmem, hPa⟩)

/-- Witness for C7 at a concrete query and store. -/
theorem search_nonempty_spec_witness :
    (search_articles dbW0 "+alpha -beta gamma" 20 false).length ≤ 20 := by
  obtain ⟨h1, h2, h3, h4, h5⟩ :=
    search_nonempty_spec dbW0 "+alpha -beta gamma" 20 false (by decide) (by decide)
  exact h3

/-- Two articles with equal (default) weight; the first was created and
last updated earlier than the second. -/
def dbTie : DB :=
  (create_article (create_article emptyDB "First" "older" [] none none).2
    "Second" "newer" [] none none).2

/-- C8 counterexample: for the empty query, the code path is
`get_articles(sort_by="weight_score")`, which orders by weight only —
no `updated_at` tie-break is applied.  With two equal-weight articles
the earlier-updated one (updated_at 0) is returned first, not the
most recently updated one (updated_at 2) as the claim requires. -/
theorem empty_query_no_tiebreak_cex :
    (search_articles dbTie "" 20 false).map (fun a => (a.weight_score, a.updated_at))
      = [(1, 0), (1, 2)] ∧
    (search_articles dbTie "" 20 false).map (fun a => (a.weight_score, a.updated_at))
      ≠ [(1, 2), (1, 0)] := by decide

/-- C8 (amended): for an empty query (or one whose parse yields no terms
in any set), `search_articles` applies no term filtering at all — it
returns `get_articles` limited to `limit` active (and, when
`public_only`, public) articles ordered by weight descending; no
`updated_at` tie-break is applied among equal weights (ties stay in
table order). -/
theorem empty_query_amended :
    ∀ db q limit po,
      (q.data.all Char.isWhitespace = true ∨ _parse_search_query q = ([], [], [])) →
      search_articles db q limit po
        = (get_articles db 0 limit "weight_score" "desc" po).1 ∧
      (∀ a ∈ search_articles db q limit po,
        a.is_active = true ∧ (po = true → a.is_public = true)) ∧
      List.Sorted weightDesc (search_articles db q limit po) ∧
      (search_articles db q limit po).length ≤ limit ∧
      ((db.articles.filter (baseFilter po)).length ≤ limit →
        ∀ a ∈ db.articles, baseFilter po a = true →
          a ∈ search_articles db q limit po) := by
  intro db q limit po hcase
  have hs : search_articles db q limit po
      = (get_articles db 0 limit "weight_score" "desc" po).1 := by
    rcases hcase with hws | hparse
    · simp only [search_articles]
      rw [if_pos hws]
    · by_cases hws : (q.data.all Char.isWhitespace) = true
      · simp only [search_articles]
        rw [if_pos hws]
      · simp only [search_articles]
        rw [if_neg hws, hparse]
        simp
  have hg : (get_articles db 0 limit "weight_score" "desc" po).1
      = ((db.articles.filter (baseFilter po)).insertionSort weightDesc).take limit := by
    simp [get_articles]
  rw [hs, hg]
  refine ⟨rfl, ?_, ?_, ?_, ?_⟩
  · intro a ha
    have ha2 := (List.mem_insertionSort weightDesc).mp (List.take_subset limit _ ha)
    have hP := (List.mem_filter.mp ha2).2
    simp only [baseFilter, Bool.and_eq_true] at hP
    refine ⟨hP.1, ?_⟩
    intro hpo
    have h2 := hP.2
    rw [hpo] at h2
    simpa using h2
  · exact List.Pairwise.sublist (List.take_sublist limit _)
      (List.sorted_insertionSort weightDesc _)
  · exact List.length_take_le limit _
  · intro hlen a hmem hPa
    have hlen2 : ((db.articles.filter (baseFilter po)).insertionSort weightDesc).length
        ≤ limit := by
      rw [List.length_insertionSort]
      exact hlen
    rw [List.take_of_length_le hlen2]
    exact (List.mem_insertionSort weightDesc).mpr (List.mem_filter.mpr ⟨hmem, hPa⟩)

/-- Witness for C8 (amended) at a concrete store and the empty query. -/
theorem empty_query_amended_witness :
    search_articles dbTie "" 20 false
      = (get_articles dbTie 0 20 "weight_score" "desc" false).1 := by
  obtain ⟨h1, _⟩ := empty_query_amended dbTie "" 20 false (Or.inl (by decide))
  exact h1

/-- The published (non-draft) revision 1 of `dbW0`. -/
def verW : ArticleVersion :=
  match get_article_version dbW0 1 1 with
  | some v => v
  | none => dummyVersion

/-- C9 counterexample: on `dbW0`, version 1 exists but is not a draft
(invalid state) while version 99 does not exist (not found); both
failures of `publish_draft_version` yield the identical result `none`,
so the two outcomes are not distinct for the caller. -/
theorem notfound_invalid_collapsed_cex :
    (get_article_version dbW0 1 1).map (fun v => v.is_draft) = some false ∧
    get_article_version dbW0 1 99 = none ∧
    publish_draft_version dbW0 1 1 = none ∧
    publish_draft_version dbW0 1 99 = none ∧
    publish_draft_version dbW0 1 1 = publish_draft_version dbW0 1 99 := by decide

/-- C9 (amended): for `publish_draft_version`, `update_draft_version`
and `rollback_article_to_version`, every failure mode — document
absent, revision absent, or revision in the wrong draft state — is
reported as the one result `None`; not-found and invalid-state are
collapsed into a single indistinguishable outcome. -/
theorem failure_outcomes_collapsed :
    (∀ db aid vn, get_article db aid = none →
      publish_draft_version db aid vn = none) ∧
    (∀ db aid vn, get_article_version db aid vn = none →
      publish_draft_version db aid vn = none) ∧
    (∀ db aid vn ver, get_article_version db aid vn = some ver →
      ver.is_draft = false → publish_draft_version db aid vn = none) ∧
    (∀ db aid vn u, get_article_version db aid vn = none →
      update_draft_version db aid vn u = none) ∧
    (∀ db aid vn u ver, get_article_version db aid vn = some ver →
      ver.is_draft = false → update_draft_version db aid vn u = none) ∧
    (∀ db aid vn, get_article db aid = none →
      rollback_article_to_version db aid vn = none) ∧
    (∀ db aid vn, get_article_version db aid vn = none →
      rollback_article_to_version db aid vn = none) ∧
    (∀ db aid vn ver, get_article_version db aid vn = some ver →
      ver.is_draft = true → rollback_article_to_version db aid vn = none) := by
  refine ⟨?_, ?_, ?_, ?_, ?_, ?_, ?_, ?_⟩
  · intro db aid vn hg
    simp [publish_draft_version, hg]
  · intro db aid vn hv
    cases hg : get_article db aid with
    | none => simp [publish_draft_version, hg]
    | some a => simp [publish_draft_version, hg, hv]
  · intro db aid vn ver hv hd
    cases hg : get_article db aid with
    | none => simp [publish_draft_version, hg]
    | some a => simp [publish_draft_version, hg, hv, hd]
  · intro db aid vn u hv
    simp [update_draft_version, hv]
  · intro db aid vn u ver hv hd
    simp [update_draft_version, hv, hd]
  · intro db aid vn hg
    simp [rollback_article_to_version, hg]
  · intro db aid vn hv
    cases hg : get_article db aid with
    | none => simp [rollback_article_to_version, hg]
    | some a => simp [rollback_article_to_version, hg, hv]
  · intro db aid vn ver hv hd
    cases hg : get_article db aid with
    | none => simp [rollback_article_to_version, hg]
    | some a => simp [rollback_article_to_version, hg, hv, hd]

/-- Witness for C9 (amended) at a concrete invalid-state publish. -/
theorem failure_outcomes_collapsed_witness :
    publish_draft_version dbW0 1 1 = none :=
  failure_outcomes_collapsed.2.2.1 dbW0 1 1 verW (by decide) (by decide)

/-- The store after one helpful vote on the single article of `dbW0`. -/
def dbVote : DB :=
  match vote_helpful dbW0 1 with
  | some d => d
  | none => emptyDB

/-- C10: `vote_helpful`, `vote_unhelpful` and `increment_view_count`
mutate only the live article row — its vote/view counters and, for
votes, its weight score (`min(10, w + 0.1)` for helpful votes,
`max(0.1, w − 0.05)` for unhelpful ones) — never touching any version
row or any other article; consequently, after a vote the live weight can
differ from the weight in the most recent published revision, as the
concrete final conjunct exhibits. -/
theorem vote_frame_spec :
    (∀ db aid db2, vote_helpful db aid = some db2 →
      db2.versions = db.versions ∧
      (∀ a, get_article db aid = some a →
        ∃ a2, get_article db2 aid = some a2 ∧
          a2.helpful_votes = a.helpful_votes + 1 ∧
          a2.weight_score = ratMin 10 (a.weight_score + 1/10) ∧
          a2.weight_score ≤ 10 ∧
          a2.unhelpful_votes = a.unhelpful_votes ∧
          a2.view_count = a.view_count ∧
          a2.title = a.title ∧ a2.content = a.content ∧ a2.tags = a.tags ∧
          a2.is_public = a.is_public ∧ a2.is_active = a.is_active) ∧
      (∀ b ∈ db.articles, b.id ≠ aid → b ∈ db2.articles)) ∧
    (∀ db aid db2, vote_unhelpful db aid = some db2 →
      db2.versions = db.versions ∧
      (∀ a, get_article db aid = some a →
        ∃ a2, get_article db2 aid = some a2 ∧
          a2.unhelpful_votes = a.unhelpful_votes + 1 ∧
          a2.weight_score = ratMax (1/10) (a.weight_score - 1/20) ∧
          (1/10 : ℚ) ≤ a2.weight_score ∧
          a2.helpful_votes = a.helpful_votes ∧
          a2.view_count = a.view_count ∧
          a2.title = a.title ∧ a2.content = a.content ∧ a2.tags = a.tags ∧
          a2.is_public = a.is_public ∧ a2.is_active = a.is_active) ∧
      (∀ b ∈ db.articles, b.id ≠ aid → b ∈ db2.articles)) ∧
    (∀ db aid db2, increment_view_count db aid = some db2 →
      db2.versions = db.versions ∧
      (∀ a, get_article db aid = some a →
        ∃ a2, get_article db2 aid = some a2 ∧
          a2.view_count = a.view_count + 1 ∧
          a2.weight_score = a.weight_score ∧
          a2.helpful_votes = a.helpful_votes ∧
          a2.unhelpful_votes = a.unhelpful_votes ∧
          a2.title = a.title ∧ a2.content = a.content ∧ a2.tags = a.tags ∧
          a2.is_public = a.is_public ∧ a2.is_active = a.is_active) ∧
      (∀ b ∈ db.articles, b.id ≠ aid → b ∈ db2.articles)) ∧
    ((get_article dbVote 1).map (fun a => a.weight_score) = some (11/10) ∧
      (lastPublished dbVote 1).map (fun v => v.weight_score) = some 1 ∧
      (11/10 : ℚ) ≠ 1) := by
  have hget : get_article dbW0 1
      = some ((create_article emptyDB "Setup" "Body" ["tag1"] none none).1) := by decide
  have hvote : vote_helpful dbW0 1 = some (updateArticleRow dbW0 1 (fun a =>
      { a with helpful_votes := a.helpful_votes + 1,
               weight_score := ratMin 10 (a.weight_score + 1/10) })) := by
    simp [vote_helpful, hget]
  have hdbv : dbVote = updateArticleRow dbW0 1 (fun a =>
      { a with helpful_votes := a.helpful_votes + 1,
               weight_score := ratMin 10 (a.weight_score + 1/10) }) := by
    simp [dbVote, hvote]
  refine ⟨?_, ?_, ?_, ?_, ?_, by norm_num⟩
  rotate_left 3
  · -- live weight after the vote
    rw [hdbv]
    rw [get_article_updateRow dbW0 1 (fun a =>
        { a with helpful_votes := a.helpful_votes + 1,
                 weight_score := ratMin 10 (a.weight_score + 1/10) })
      (fun x => rfl) (fun x => rfl) _ hget]
    show some (ratMin 10
      (((create_article emptyDB "Setup" "Body" ["tag1"] none none).1).weight_score + 1/10))
      = some (11/10)
    rw [show ((create_article emptyDB "Setup" "Body" ["tag1"] none none).1).weight_score
      = 1 from rfl]
    norm_num [ratMin]
  · -- weight recorded in the latest published revision is unchanged
    rw [hdbv]
    show (pubsOf dbW0.versions 1).getLast?.map (fun v => v.weight_score) = some 1
    decide
  · intro db aid db2 h
    cases hg0 : get_article db aid with
    | none => simp [vote_helpful, hg0] at h
    | some a0 =>
      simp only [vote_helpful, hg0, Option.some.injEq] at h
      subst h
      refine ⟨rfl, ?_, ?_⟩
      · intro a hg
        obtain rfl : a0 = a := by simpa using hg
        exact ⟨_, get_article_updateRow db aid (fun x =>
            { x with helpful_votes := x.helpful_votes + 1,
                     weight_score := ratMin 10 (x.weight_score + 1/10) })
            (fun x => rfl) (fun x => rfl) a0 hg0,
          rfl, rfl, ratMin_le_left _ _, rfl, rfl, rfl, rfl, rfl, rfl, rfl⟩
      · intro b hb hne
        have hbne : (b.id == aid) = false := by simp [hne]
        have heq : (fun x => if x.id == aid then artRowUpdate db.clock (fun y =>
            { y with helpful_votes := y.helpful_votes + 1,
                     weight_score := ratMin 10 (y.weight_score + 1/10) }) x else x) b = b := by
          simp [hbne]
        exact heq ▸ List.mem_map_of_mem _ hb
  · intro db aid db2 h
    cases hg0 : get_article db aid with
    | none => simp [vote_unhelpful, hg0] at h
    | some a0 =>
      simp only [vote_unhelpful, hg0, Option.some.injEq] at h
      subst h
      refine ⟨rfl, ?_, ?_⟩
      · intro a hg
        obtain rfl : a0 = a := by simpa using hg
        exact ⟨_, get_article_updateRow db aid (fun x =>
            { x with unhelpful_votes := x.unhelpful_votes + 1,
                     weight_score := ratMax (1/10) (x.weight_score - 1/20) })
            (fun x => rfl) (fun x => rfl) a0 hg0,
          rfl, rfl, le_ratMax_left _ _, rfl, rfl, rfl, rfl, rfl, rfl, rfl⟩
      · intro b hb hne
        have hbne : (b.id == aid) = false := by simp [hne]
        have heq : (fun x => if x.id == aid then artRowUpdate db.clock (fun y =>
            { y with unhelpful_votes := y.unhelpful_votes + 1,
                     weight_score := ratMax (1/10) (y.weight_score - 1/20) }) x else x) b = b := by
          simp [hbne]
        exact heq ▸ List.mem_map_of_mem _ hb
  · intro db aid db2 h
    cases hg0 : get_article db aid with
    | none => simp [increment_view_count, hg0] at h
    | some a0 =>
      simp only [increment_view_count, hg0, Option.some.injEq] at h
      subst h
      refine ⟨rfl, ?_, ?_⟩
      · intro a hg
        obtain rfl : a0 = a := by simpa using hg
        exact ⟨_, get_article_updateRow db aid (fun x =>
            { x with view_count := x.view_count + 1 })
            (fun x => rfl) (fun x => rfl) a0 hg0,
          rfl, rfl, rfl, rfl, rfl, rfl, rfl, rfl, rfl⟩
      · intro b hb hne
        have hbne : (b.id == aid) = false := by simp [hne]
        have heq : (fun x => if x.id == aid then artRowUpdate db.clock (fun y =>
            { y with view_count := y.view_count + 1 }) x else x) b = b := by
          simp [hbne]
        exact heq ▸ List.mem_map_of_mem _ hb

/-- Witness for C10 at a concrete helpful vote. -/
theorem vote_frame_spec_witness : dbVote.versions = dbW0.versions := by
  have hget : get_article dbW0 1
      = some ((create_article emptyDB "Setup" "Body" ["tag1"] none none).1) := by decide
  have hvote : vote_helpful dbW0 1 = some (updateArticleRow dbW0 1 (fun a =>
      { a with helpful_votes := a.helpful_votes + 1,
               weight_score := ratMin 10 (a.weight_score + 1/10) })) := by
    simp [vote_helpful, hget]
  obtain ⟨hv, _⟩ := vote_frame_spec.1 dbW0 1 dbVote (by simp [dbVote, hvote])
  exact hv

end KB
